import Mathlib

/-!
# Verification of the `wolff` expression filter engine

Shallow embedding of `src/wolff/wolff.py` (`operator_factory` and `filter_pd`),
the dynamic boolean-expression row filter over pandas datasets, together with
proofs of the specification's claims about it.

Modelled fragment: datasets are DataFrames (named index levels plus named
columns) or Series (named index levels plus one optional-named value axis);
cell values are integers, strings, or null (`NaN`).  Floating-point numbers,
datetimes, dtype-specific behaviour and regular-expression metacharacters in
`str.contains` patterns (the source calls `contains` with plain substrings)
are outside the modelled fragment, as is pandas index alignment between masks
of different shapes (never produced by `filter_pd`, whose masks all share the
input's row axis).  Exceptions raised by the Python code are modelled by the
`Except` monad with an error type mirroring the Python exception classes.
-/

/-- A cell value: Python `int`, `str`, or `NaN`/`None` (null). -/
inductive Value where
  | int (n : Int)
  | str (s : String)
  | null
deriving DecidableEq, Repr

/-- The operand of a predicate: a scalar or a list (for membership tests). -/
inductive Operand where
  | scalar (v : Value)
  | coll (vs : List Value)
deriving DecidableEq, Repr

/-- A predicate triple `(col, op, val)` as destructured by
`for col, op, val in conjunction`. -/
abbrev Pred := String × String × Operand

/-- A pandas DataFrame: named index levels, named columns, and rows, each row
holding its index-label cells and its data cells positionally. -/
structure PdFrame where
  indexNames : List (Option String)
  colNames : List String
  rows : List (List Value × List Value)
deriving DecidableEq, Repr

/-- A pandas Series: an optional name, named index levels, and entries, each
holding its index-label cells and its one data cell. -/
structure PdSeries where
  name : Option String
  indexNames : List (Option String)
  entries : List (List Value × Value)
deriving DecidableEq, Repr

/-- The `df` argument of `filter_pd`: a DataFrame or a Series. -/
inductive Dataset where
  | frame (f : PdFrame)
  | series (s : PdSeries)
deriving DecidableEq, Repr

/-- Errors raised by the Python code, by exception class. -/
inductive PdError where
  | valueError (msg : String)
  | keyError (key : String)
  | typeError
  | attributeError
  | indexError
  | alignError
deriving DecidableEq, Repr

/-- A boolean selection mask: a per-row vector (the normal case), or a
per-cell grid when an operator was applied to a whole DataFrame. Entries are
`none` for `NaN` in an object-dtype mask. -/
inductive Mask where
  | vec (m : List (Option Bool))
  | grid (g : List (List (Option Bool)))
deriving DecidableEq, Repr

/-- What a predicate's field resolves to: a value vector (index level, column,
or a bare Series' own values), or the whole DataFrame (the `series = df`
branch when `df` is a DataFrame). -/
inductive Target where
  | vec (xs : List Value)
  | whole (f : PdFrame)
deriving DecidableEq, Repr

/-- The keys of `operator_factory`, as a tagged enumeration. -/
inductive OpKind where
  | eq | gt | ge | lt | le | isin | nisin | contains | ncontains
deriving DecidableEq, Repr

/-- The dictionary lookup `operator_factory[op]`; `none` models `KeyError`. -/
def lookupOp : String → Option OpKind
  | "=" => some .eq
  | "==" => some .eq
  | ">" => some .gt
  | ">=" => some .ge
  | "<" => some .lt
  | "<=" => some .le
  | "in" => some .isin
  | "not in" => some .nisin
  | "contains" => some .contains
  | "not contains" => some .ncontains
  | _ => none

/-- A single-quote character, for building Python `repr`/f-string text. -/
def squote : String := String.singleton (Char.ofNat 39)

/-- Python `str(v)`. -/
def pyStr : Value → String
  | .int n => toString n
  | .str s => s
  | .null => "nan"

/-- Python `repr(v)` (as used by `str` of a list). -/
def pyRepr : Value → String
  | .int n => toString n
  | .str s => squote ++ s ++ squote
  | .null => "nan"

/-- Python `str(y)` of an operand (the `contains` pattern). -/
def operandStr : Operand → String
  | .scalar v => pyStr v
  | .coll vs => "[" ++ String.intercalate ", " (vs.map pyRepr) ++ "]"

/-- Python `==` between two cell values: `NaN` equals nothing (not even
itself), values of different types compare unequal. -/
def pyEq : Value → Value → Bool
  | .int a, .int b => a == b
  | .str a, .str b => a == b
  | _, _ => false

/-- Equality as used by `Series.isin`, which (unlike `==`) matches `NaN`
against `NaN`. -/
def isinMatch : Value → Value → Bool
  | .null, .null => true
  | a, b => pyEq a b

/-- Code-point lexicographic order on character lists (Python string order). -/
def strLtB : List Char → List Char → Bool
  | [], [] => false
  | [], _ :: _ => true
  | _ :: _, [] => false
  | a :: as, b :: bs => a.val < b.val || (a == b && strLtB as bs)

/-- An ordering comparison (`>`, `>=`, `<`, `<=`) between two cell values:
int/int and str/str compare normally, any comparison against `NaN` is
`False`, and mixed-type order comparisons raise `TypeError`. -/
def pyCmp (k : OpKind) (a b : Value) : Except PdError Bool :=
  match a, b with
  | .int x, .int y =>
    .ok (match k with
      | .gt => decide (x > y)
      | .ge => decide (x ≥ y)
      | .lt => decide (x < y)
      | .le => decide (x ≤ y)
      | _ => false)
  | .str x, .str y =>
    .ok (match k with
      | .gt => strLtB y.toList x.toList
      | .ge => !strLtB x.toList y.toList
      | .lt => strLtB x.toList y.toList
      | .le => !strLtB y.toList x.toList
      | _ => false)
  | .int _, .null => .ok false
  | .null, .int _ => .ok false
  | .null, .null => .ok false
  | _, _ => .error .typeError

/-- Is `p` a contiguous run of `s`, starting at its head? -/
def hasPre : List Char → List Char → Bool
  | [], _ => true
  | _ :: _, [] => false
  | a :: as, b :: bs => a == b && hasPre as bs

/-- Python `pat in s` substring test (and `str.contains` with a
metacharacter-free pattern). -/
def hasSub (p : List Char) : List Char → Bool
  | [] => hasPre p []
  | c :: rest => hasPre p (c :: rest) || hasSub p rest

/-- One entry of `x.str.contains(pat)` over an object-dtype vector: a string
cell gives a boolean, any other cell (null, or a non-string under the `.str`
accessor) gives `NaN`. -/
def containsElem (x : Value) (pat : String) : Option Bool :=
  match x with
  | .str s => some (hasSub pat.toList s.toList)
  | _ => none

/-- Elementwise mapping in `Except`, stopping at the first error (the
vectorized operation either fully succeeds or raises). -/
def mapE (f : α → Except PdError β) : List α → Except PdError (List β)
  | [] => .ok []
  | a :: as => do
    let b ← f a
    let bs ← mapE f as
    pure (b :: bs)

/-- Application of one `operator_factory` entry to a value vector `xs` and
operand `y`, producing a per-row mask.  Mirrors the pandas semantics of the
corresponding lambda:
* `=`/`==` compares elementwise (a list operand compares positionally and
  raises `ValueError` on length mismatch);
* `>`, `>=`, `<`, `<=` compare elementwise via `pyCmp`;
* `in` is `x.isin(y)`, requiring a list operand (pandas raises `TypeError`
  for non-list-likes) and never producing `NaN`;
* `not in` is `~x.isin(y)`, the elementwise flip;
* `contains` is `x.str.contains(str(y))`, `NaN` on non-string cells;
* `not contains` is `~x.str.contains(str(y))`; the `~` on an object-dtype
  vector containing `NaN` raises `TypeError`. -/
def applySeriesK (k : OpKind) (xs : List Value) (y : Operand) : Except PdError (List (Option Bool)) :=
  match k with
  | .eq =>
    match y with
    | .scalar v => .ok (xs.map (fun x => some (pyEq x v)))
    | .coll vs =>
      if xs.length = vs.length then
        .ok ((xs.zip vs).map (fun p => some (pyEq p.1 p.2)))
      else .error (.valueError "Lengths must match to compare")
  | .gt | .ge | .lt | .le =>
    match y with
    | .scalar v => (mapE (fun x => pyCmp k x v) xs).map (fun bs => bs.map some)
    | .coll vs =>
      if xs.length = vs.length then
        (mapE (fun p => pyCmp k p.1 p.2) (xs.zip vs)).map (fun bs => bs.map some)
      else .error (.valueError "Lengths must match to compare")
  | .isin =>
    match y with
    | .coll vs => .ok (xs.map (fun x => some (vs.any (isinMatch x))))
    | .scalar _ => .error .typeError
  | .nisin =>
    match y with
    | .coll vs => .ok (xs.map (fun x => some (!(vs.any (isinMatch x)))))
    | .scalar _ => .error .typeError
  | .contains => .ok (xs.map (fun x => containsElem x (operandStr y)))
  | .ncontains =>
    mapE (fun o => match o with
        | some b => .ok (some (!b))
        | none => .error .typeError)
      (xs.map (fun x => containsElem x (operandStr y)))

/-- Application of an operator to a resolved target.  On a whole DataFrame,
comparison and membership operators act cellwise row by row (a list operand
broadcasts along the columns), while `contains`/`not contains` raise
`AttributeError` (`DataFrame` has no `.str` accessor). -/
def applyOp (k : OpKind) (t : Target) (y : Operand) : Except PdError Mask :=
  match t with
  | .vec xs => (applySeriesK k xs y).map .vec
  | .whole f =>
    match k with
    | .contains | .ncontains => .error .attributeError
    | _ => (mapE (fun r => applySeriesK k r.2 y) f.rows).map .grid

def Dataset.indexNames : Dataset → List (Option String)
  | .frame f => f.indexNames
  | .series s => s.indexNames

/-- The `column_names` value: `[]` when the dataset is a Series, else `df.columns`. -/
def Dataset.colNames : Dataset → List String
  | .frame f => f.colNames
  | .series _ => []

/-- The `series_name` value: `df.name` when the dataset is a Series (possibly `None`),
else the string `""`. -/
def Dataset.nameSlot : Dataset → Option String
  | .frame _ => some ""
  | .series s => s.name

/-- Python `col == series_name`, where `series_name` is a string or `None`
(a string never equals `None`). -/
def nameMatches (col : String) : Option String → Bool
  | some s => col == s
  | none => false

def Dataset.nrows : Dataset → Nat
  | .frame f => f.rows.length
  | .series s => s.entries.length

def Dataset.idxCells : Dataset → List (List Value)
  | .frame f => f.rows.map (fun r => r.1)
  | .series s => s.entries.map (fun e => e.1)

/-- The call `df.index.get_level_values(col)`: the per-row values of the first index
level named `col`. -/
def Dataset.levelValues (df : Dataset) (col : String) : List Value :=
  let j := df.indexNames.findIdx (fun n => n == some col)
  df.idxCells.map (fun cs => cs.getD j .null)

/-- The lookup `df[col]`: the named column's value vector (only reached for frames). -/
def Dataset.colValues (df : Dataset) (col : String) : List Value :=
  match df with
  | .frame f =>
    let j := f.colNames.findIdx (fun n => n == col)
    f.rows.map (fun r => r.2.getD j .null)
  | .series _ => []

/-- The `series = df` branch: a Series resolves to its own values, a
DataFrame to the whole frame. -/
def Dataset.selfTarget : Dataset → Target
  | .frame f => .whole f
  | .series s => .vec (s.entries.map (fun e => e.2))

/-- The f-string `"Column '{col}' is not in the passed dataframe"`. -/
def colErrMsg (col : String) : String :=
  "Column " ++ squote ++ col ++ squote ++ " is not in the passed dataframe"

/-- The `if col in indice_names / elif col in column_names /
elif col == series_name / else raise ValueError` chain of `filter_pd`. -/
def resolveField (df : Dataset) (col : String) : Except PdError Target :=
  if df.indexNames.contains (some col) then .ok (.vec (df.levelValues col))
  else if df.colNames.contains col then .ok (.vec (df.colValues col))
  else if nameMatches col df.nameSlot then .ok df.selfTarget
  else .error (.valueError (colErrMsg col))

/-- One predicate's mask: resolve the field, look the operator up in
`operator_factory` (a `KeyError` on unknown tokens), and apply it.  The field
is resolved before the operator lookup, exactly as in the loop body. -/
def evalPred (df : Dataset) (p : Pred) : Except PdError Mask := do
  let t ← resolveField df p.1
  match lookupOp p.2.1 with
  | none => .error (.keyError p.2.1)
  | some k => applyOp k t p.2.2

/-- Python `operator.and_` on two mask entries; involving a `NaN` entry the
object-dtype logical operation raises `TypeError`. -/
def andOB : Option Bool → Option Bool → Except PdError (Option Bool)
  | some a, some b => .ok (some (a && b))
  | _, _ => .error .typeError

/-- Python `operator.or_` on two mask entries, as `andOB`. -/
def orOB : Option Bool → Option Bool → Except PdError (Option Bool)
  | some a, some b => .ok (some (a || b))
  | _, _ => .error .typeError

/-- Elementwise `&` of two masks.  Masks built by `filter_pd` all share the
input's row axis; combination of masks of different shapes (pandas index
alignment) is outside the modelled fragment and marked `alignError`. -/
def maskAnd : Mask → Mask → Except PdError Mask
  | .vec a, .vec b =>
    if a.length = b.length then
      (mapE (fun p => andOB p.1 p.2) (a.zip b)).map .vec
    else .error .alignError
  | .grid a, .grid b =>
    if a.length = b.length then
      (mapE (fun p =>
          if p.1.length = p.2.length then mapE (fun q => andOB q.1 q.2) (p.1.zip p.2)
          else .error .alignError)
        (a.zip b)).map .grid
    else .error .alignError
  | _, _ => .error .alignError

/-- Elementwise `|` of two masks, as `maskAnd`. -/
def maskOr : Mask → Mask → Except PdError Mask
  | .vec a, .vec b =>
    if a.length = b.length then
      (mapE (fun p => orOB p.1 p.2) (a.zip b)).map .vec
    else .error .alignError
  | .grid a, .grid b =>
    if a.length = b.length then
      (mapE (fun p =>
          if p.1.length = p.2.length then mapE (fun q => orOB q.1 q.2) (p.1.zip p.2)
          else .error .alignError)
        (a.zip b)).map .grid
    else .error .alignError
  | _, _ => .error .alignError

/-- Python `functools.reduce(f, ms)`: `TypeError` on an empty sequence, else a left
fold from the first element. -/
def reduceM (f : Mask → Mask → Except PdError Mask) : List Mask → Except PdError Mask
  | [] => .error .typeError
  | m :: ms => ms.foldlM f m

/-- Keep the rows marked `true` (positional boolean indexing). -/
def pick (xs : List α) (bs : List Bool) : List α :=
  ((xs.zip bs).filter (fun p => p.2)).map (fun p => p.1)

/-- The selection `df[mask]` for an all-boolean row mask: the marked rows, in order, with
all names kept. -/
def keepRows (df : Dataset) (bs : List Bool) : Dataset :=
  match df with
  | .frame f => .frame { f with rows := pick f.rows bs }
  | .series s => .series { s with entries := pick s.entries bs }

/-- Extract an all-boolean mask; a `NaN` entry makes pandas raise
`ValueError` (cannot mask with an array containing NA values). -/
def toBoolMask (m : List (Option Bool)) : Except PdError (List Bool) :=
  mapE (fun o => match o with
      | some b => .ok b
      | none => .error (.valueError "Cannot mask with non-boolean array containing NA / NaN values"))
    m

/-- The data cells of one row, masked cellwise (`df[bool_frame]` keeps a cell
where the mask is `True` and writes `NaN` elsewhere, including where the mask
itself is `NaN`). -/
def maskCells (vs : List Value) (mr : List (Option Bool)) : List Value :=
  (vs.zip mr).map (fun p => if p.2 == some true then p.1 else .null)

/-- The final `df[...]` selection.  A row-vector mask keeps matching rows; a
grid mask on a DataFrame is pandas `df.where`: same shape, non-matching cells
replaced by `NaN`. -/
def selectMask (df : Dataset) (m : Mask) : Except PdError Dataset :=
  match m, df with
  | .vec ob, _ => do
    let bs ← toBoolMask ob
    if bs.length = df.nrows then pure (keepRows df bs) else .error .alignError
  | .grid g, .frame f =>
    if g.length = f.rows.length
        && (f.rows.zip g).all (fun rm => rm.1.2.length == rm.2.length) then
      .ok (.frame { f with rows := (f.rows.zip g).map (fun rm => (rm.1.1, maskCells rm.1.2 rm.2)) })
    else .error .alignError
  | .grid _, .series _ => .error .alignError

/-- A filter specification as passed to `filter_pd`: a flat list of predicate
triples, or a list of lists of predicate triples. -/
inductive Filters where
  | flat (ps : List Pred)
  | nested (cs : List (List Pred))
deriving DecidableEq, Repr

/-- Python falsiness of the `filters` list (`not filters`). -/
def Filters.isEmpty : Filters → Bool
  | .flat ps => ps.isEmpty
  | .nested cs => cs.isEmpty

/-- The `isinstance(filters[0][0], str)` auto-wrap: a flat list's first
element is a triple whose first component is the field string, so the whole
list is wrapped; a nested list's first element is a list, whose first element
is a triple (not a string) — unless that first conjunction is empty, in which
case `filters[0][0]` raises `IndexError`. -/
def Filters.normalize : Filters → Except PdError (List (List Pred))
  | .flat ps => .ok [ps]
  | .nested cs =>
    match cs with
    | [] => .ok []
    | [] :: _ => .error .indexError
    | (_ :: _) :: _ => .ok cs

/-- All predicate triples occurring in a specification. -/
def Filters.preds : Filters → List Pred
  | .flat ps => ps
  | .nested cs => cs.flatten

/-- The predicates of an optional specification. -/
def predsOfO : Option Filters → List Pred
  | none => []
  | some fs => fs.preds

/-- The inner loop of `filter_pd`: one mask per predicate of a conjunction,
stopping at the first raised exception. -/
def evalConjMasks (df : Dataset) : List Pred → Except PdError (List Mask)
  | [] => .ok []
  | p :: ps => do
    let m ← evalPred df p
    let ms ← evalConjMasks df ps
    pure (m :: ms)

/-- The outer loop of `filter_pd`: each conjunction's predicates are
evaluated and reduced with `&` before the next conjunction is examined. -/
def evalDisjMasks (df : Dataset) : List (List Pred) → Except PdError (List Mask)
  | [] => .ok []
  | c :: cs => do
    let ms ← evalConjMasks df c
    let m ← reduceM maskAnd ms
    let rest ← evalDisjMasks df cs
    pure (m :: rest)

/-- The embedding of `filter_pd(df, filters)`. -/
def filter_pd (df : Dataset) (filters : Option Filters := none) : Except PdError Dataset :=
  match filters with
  | none => .ok df
  | some fs =>
    if fs.isEmpty then .ok df
    else
      match fs.normalize with
      | .error e => .error e
      | .ok cs => do
        let dms ← evalDisjMasks df cs
        let m ← reduceM maskOr dms
        selectMask df m

/-- Rowwise satisfaction of one predicate: the entry the predicate's mask
holds for row `i` (`false` when the predicate fails to evaluate or the entry
is `NaN`). -/
def predSat (df : Dataset) (p : Pred) (i : Nat) : Bool :=
  match evalPred df p with
  | .ok (.vec m) => (m.getD i none).getD false
  | _ => false

/-- The predicate evaluates to an all-boolean row mask of the dataset's
length: its mask is a genuine per-row selection. -/
def predOkBool (df : Dataset) (p : Pred) : Bool :=
  match evalPred df p with
  | .ok (.vec m) => m.all (fun o => o.isSome) && m.length == df.nrows
  | _ => false

/-- The field resolves to the whole DataFrame (the `series = df` branch on a
frame), rather than to a value vector. -/
def resolvesWhole (df : Dataset) (col : String) : Bool :=
  match resolveField df col with
  | .ok (.whole _) => true
  | _ => false

/-- Row tuples of a dataset (index cells then data cells), for stating
row-subsequence facts uniformly over frames and series. -/
def rowList : Dataset → List (List Value)
  | .frame f => f.rows.map (fun r => r.1 ++ r.2)
  | .series s => s.entries.map (fun e => e.1 ++ [e.2])

def Dataset.isFrameB : Dataset → Bool
  | .frame _ => true
  | .series _ => false

/-- Decidable equality of `Except` results, for evaluating concrete runs. -/
def exceptDecEq [DecidableEq ε] [DecidableEq α] : DecidableEq (Except ε α)
  | .ok a, .ok b =>
    if h : a = b then .isTrue (by rw [h]) else .isFalse (by intro he; cases he; exact h rfl)
  | .error a, .error b =>
    if h : a = b then .isTrue (by rw [h]) else .isFalse (by intro he; cases he; exact h rfl)
  | .ok _, .error _ => .isFalse (by intro he; cases he)
  | .error _, .ok _ => .isFalse (by intro he; cases he)

instance [DecidableEq ε] [DecidableEq α] : DecidableEq (Except ε α) := exceptDecEq

def vI (n : Int) : Value := .int n

def vS (s : String) : Value := .str s

/-- The spec's concrete dataset: rows `(1, "alice", 30)`, `(2, "bob", 25)`,
`(3, "carol", 40)` over a default (unnamed) integer index. -/
def aliceDf : Dataset := .frame {
  indexNames := [none],
  colNames := ["id", "name", "age"],
  rows := [([vI 0], [vI 1, vS "alice", vI 30]),
           ([vI 1], [vI 2, vS "bob", vI 25]),
           ([vI 2], [vI 3, vS "carol", vI 40])] }

/-- A one-column, one-row DataFrame used for concrete error runs. -/
def qDf : Dataset := .frame {
  indexNames := [none], colNames := ["qqq"], rows := [([vI 0], [vI 5])] }

/-- A one-entry Series with no name (`df.name is None`). -/
def unnamedSeries : Dataset := .series {
  name := none, indexNames := [none], entries := [([vI 0], vI 1)] }

/-- C2: on the alice/bob/carol dataset, the flat single-conjunction filter
`[("age", ">=", 30), ("name", "contains", "a")]` returns exactly the rows
`id=1` and `id=3`, in that order, excluding `id=2`. -/
theorem filter_concrete_and_scenario :
    filter_pd aliceDf (some (.flat [("age", ">=", .scalar (vI 30)),
                                    ("name", "contains", .scalar (vS "a"))])) =
      .ok (.frame {
        indexNames := [none],
        colNames := ["id", "name", "age"],
        rows := [([vI 0], [vI 1, vS "alice", vI 30]),
                 ([vI 2], [vI 3, vS "carol", vI 40])] }) := by
  decide

/-- C3: a `None` specification, an empty flat specification, and an empty
nested specification each short-circuit and return the dataset unchanged. -/
theorem filter_empty_identity (df : Dataset) :
    filter_pd df none = .ok df ∧
    filter_pd df (some (.flat [])) = .ok df ∧
    filter_pd df (some (.nested [])) = .ok df :=
  ⟨rfl, rfl, rfl⟩

/-- C4: a nonempty flat specification (whose first element's first component
is necessarily a field string) evaluates exactly as the same specification
wrapped in one more level of nesting. -/
theorem filter_single_conjunction_wrap (df : Dataset) (ps : List Pred) (h : ps ≠ []) :
    filter_pd df (some (.flat ps)) = filter_pd df (some (.nested [ps])) := by
  cases ps with
  | nil => exact absurd rfl h
  | cons p tl => rfl

/-- Witness for C4 at a concrete input. -/
theorem filter_single_conjunction_wrap_witness :
    ([(("age", ">=", .scalar (vI 30)) : Pred)] ≠ []) ∧
    filter_pd aliceDf (some (.flat [("age", ">=", .scalar (vI 30))])) =
      filter_pd aliceDf (some (.nested [[("age", ">=", .scalar (vI 30))]])) :=
  ⟨by decide, filter_single_conjunction_wrap aliceDf _ (by decide)⟩

/-- A two-column DataFrame used for concrete runs about the empty-string
field. -/
def q2Df : Dataset := .frame {
  indexNames := [none], colNames := ["qqq", "rrr"],
  rows := [([vI 0], [vI 5, vI 7])] }

/-- The cell-masked result of running the empty-string-field filter on
`qDf`. -/
def qDfMasked : Dataset := .frame {
  indexNames := [none], colNames := ["qqq"], rows := [([vI 0], [Value.null])] }

/-- Counterexample to C5: with the empty-string field on a DataFrame the
operator applies to the whole frame, and the final selection is a cellwise
mask — evaluation succeeds, but the returned rows (here `[0, null]`) are not
a subsequence of the input's rows (here `[0, 5]`). -/
theorem filter_shape_counterexample :
    filter_pd qDf (some (.flat [("", "=", .scalar (vI 0))])) = .ok qDfMasked ∧
    ¬ List.Sublist (rowList qDfMasked) (rowList qDf) := by
  refine ⟨by decide, ?_⟩
  decide

/-- Counterexample to C7: the raised `ValueError` names the offending field
but does not list the available fields (the message for field `"zzz"` never
mentions the existing column `"qqq"`); moreover a specification containing an
unresolvable field can instead fail with the operator `KeyError` when an
earlier predicate has an unknown operator. -/
theorem field_error_counterexample :
    filter_pd qDf (some (.flat [("zzz", "=", .scalar (vI 0))])) =
      .error (.valueError (colErrMsg "zzz")) ∧
    hasSub "qqq".toList (colErrMsg "zzz").toList = false ∧
    filter_pd qDf (some (.flat [("qqq", "~=", .scalar (vI 0)),
                                ("zzz", "=", .scalar (vI 0))])) =
      .error (.keyError "~=") := by
  decide

/-- Counterexample to C8: a specification containing a predicate with a
resolvable field and the unknown operator `"~="` can fail with the
field-resolution `ValueError` instead of the operator `KeyError`, when an
earlier predicate's field is unresolvable. -/
theorem operator_error_counterexample :
    filter_pd qDf (some (.flat [("zzz", "=", .scalar (vI 0)),
                                ("qqq", "~=", .scalar (vI 0))])) =
      .error (.valueError (colErrMsg "zzz")) ∧
    (Except.error (PdError.valueError (colErrMsg "zzz")) : Except PdError Dataset) ≠
      .error (.keyError "~=") := by
  decide

/-- Counterexample to C9: an unnamed series' name is `None`, which no string
field equals, so the empty-string field does not resolve to the series'
values but raises; and on a (multi-column) DataFrame the name slot is the
string `""`, so the empty-string field resolves to the whole frame and
evaluation does not fail with a resolution error. -/
theorem series_name_resolution_counterexample :
    filter_pd unnamedSeries (some (.flat [("", "=", .scalar (vI 1))])) =
      .error (.valueError (colErrMsg "")) ∧
    (filter_pd q2Df (some (.flat [("", "=", .scalar (vI 5))]))).isOk = true := by
  decide

/-- If `f` succeeds on every element of `l` with value `v a`, the elementwise
mapping succeeds with the mapped list. -/
theorem mapE_ok_of_forall {α β : Type} {f : α → Except PdError β} {v : α → β} :
    ∀ (l : List α), (∀ a ∈ l, f a = .ok (v a)) → mapE f l = .ok (l.map v) := by
  intro l h
  induction l with
  | nil => rfl
  | cons a as ih =>
    have ha : f a = .ok (v a) := h a (List.mem_cons_self a as)
    have ht := ih (fun b hb => h b (List.mem_cons_of_mem a hb))
    simp only [mapE, ha, ht, List.map_cons]
    rfl

/-- An all-boolean mask vector is determined by its entries read through
`getD`. -/
theorem allSome_eq_canon : ∀ (m : List (Option Bool)), m.all Option.isSome = true →
    m = (List.range m.length).map (fun i => some ((m.getD i none).getD false)) := by
  intro m h
  induction m with
  | nil => rfl
  | cons o t ih =>
    simp only [List.all_cons, Bool.and_eq_true] at h
    obtain ⟨h1, h2⟩ := h
    cases o with
    | none => simp at h1
    | some b =>
      have ht := ih h2
      simp only [List.length_cons, List.range_succ_eq_map, List.map_cons, List.map_map,
        Function.comp_def, List.getD_cons_succ, List.getD_cons_zero, Option.getD_some]
      conv_lhs => rw [ht]

/-- The all-boolean row mask whose entry at row `i` is `f i`. -/
def canonMask (df : Dataset) (f : Nat → Bool) : Mask :=
  .vec ((List.range df.nrows).map (fun i => some (f i)))

/-- A predicate that evaluates to an all-boolean row mask evaluates to the
mask of its rowwise satisfaction function. -/
theorem evalPred_canon (df : Dataset) (p : Pred) (h : predOkBool df p = true) :
    evalPred df p = .ok (canonMask df (predSat df p)) := by
  unfold predOkBool at h
  cases he : evalPred df p with
  | error e => rw [he] at h; exact absurd h (by simp)
  | ok m =>
    cases m with
    | grid g => rw [he] at h; exact absurd h (by simp)
    | vec m =>
      rw [he] at h
      simp only [Bool.and_eq_true, beq_iff_eq] at h
      obtain ⟨h1, h2⟩ := h
      have hsat : ∀ i, predSat df p i = (m.getD i none).getD false := by
        intro i; simp [predSat, he]
      unfold canonMask
      rw [← h2]
      have : (List.range m.length).map (fun i => some (predSat df p i)) =
          (List.range m.length).map (fun i => some ((m.getD i none).getD false)) := by
        simp only [hsat]
      rw [this, ← allSome_eq_canon m h1]

/-- Entrywise `&` of two all-boolean row masks is the entrywise conjunction. -/
theorem maskAnd_canon (df : Dataset) (f g : Nat → Bool) :
    maskAnd (canonMask df f) (canonMask df g) = .ok (canonMask df (fun i => f i && g i)) := by
  have hz : (((List.range df.nrows).map (fun i => some (f i))).zip
      ((List.range df.nrows).map (fun i => some (g i)))) =
      (List.range df.nrows).map (fun i => ((some (f i) : Option Bool), (some (g i) : Option Bool))) :=
    List.zip_map' _ _ _
  have hm := mapE_ok_of_forall
    (f := fun pr : Option Bool × Option Bool => andOB pr.1 pr.2)
    (v := fun pr : Option Bool × Option Bool => some (pr.1.getD false && pr.2.getD false))
    ((List.range df.nrows).map (fun i => ((some (f i) : Option Bool), (some (g i) : Option Bool))))
    (by
      intro a ha
      simp only [List.mem_map] at ha
      obtain ⟨i, _, rfl⟩ := ha
      rfl)
  simp only [canonMask, maskAnd]
  rw [if_pos (by simp), hz, hm]
  simp only [Except.map, List.map_map, Function.comp_def, Option.getD_some]

/-- Entrywise `|` of two all-boolean row masks is the entrywise disjunction. -/
theorem maskOr_canon (df : Dataset) (f g : Nat → Bool) :
    maskOr (canonMask df f) (canonMask df g) = .ok (canonMask df (fun i => f i || g i)) := by
  have hz : (((List.range df.nrows).map (fun i => some (f i))).zip
      ((List.range df.nrows).map (fun i => some (g i)))) =
      (List.range df.nrows).map (fun i => ((some (f i) : Option Bool), (some (g i) : Option Bool))) :=
    List.zip_map' _ _ _
  have hm := mapE_ok_of_forall
    (f := fun pr : Option Bool × Option Bool => orOB pr.1 pr.2)
    (v := fun pr : Option Bool × Option Bool => some (pr.1.getD false || pr.2.getD false))
    ((List.range df.nrows).map (fun i => ((some (f i) : Option Bool), (some (g i) : Option Bool))))
    (by
      intro a ha
      simp only [List.mem_map] at ha
      obtain ⟨i, _, rfl⟩ := ha
      rfl)
  simp only [canonMask, maskOr]
  rw [if_pos (by simp), hz, hm]
  simp only [Except.map, List.map_map, Function.comp_def, Option.getD_some]

/-- Folding `&` over all-boolean row masks accumulates the entrywise
conjunction. -/
theorem foldlM_maskAnd_canon (df : Dataset) :
    ∀ (fs : List (Nat → Bool)) (g : Nat → Bool),
    (fs.map (canonMask df)).foldlM maskAnd (canonMask df g) =
      .ok (canonMask df (fun i => fs.foldl (fun b f => b && f i) (g i))) := by
  intro fs
  induction fs with
  | nil => intro g; rfl
  | cons f fs ih =>
    intro g
    simp only [List.map_cons, List.foldlM_cons, maskAnd_canon]
    simpa using ih (fun i => g i && f i)

/-- Folding `|` over all-boolean row masks accumulates the entrywise
disjunction. -/
theorem foldlM_maskOr_canon (df : Dataset) :
    ∀ (fs : List (Nat → Bool)) (g : Nat → Bool),
    (fs.map (canonMask df)).foldlM maskOr (canonMask df g) =
      .ok (canonMask df (fun i => fs.foldl (fun b f => b || f i) (g i))) := by
  intro fs
  induction fs with
  | nil => intro g; rfl
  | cons f fs ih =>
    intro g
    simp only [List.map_cons, List.foldlM_cons, maskOr_canon]
    simpa using ih (fun i => g i || f i)

theorem foldl_and_eq_all (l : List (Nat → Bool)) (b : Bool) (i : Nat) :
    l.foldl (fun acc f => acc && f i) b = (b && l.all (fun f => f i)) := by
  induction l generalizing b with
  | nil => simp
  | cons f fs ih => simp [List.foldl_cons, List.all_cons, ih, Bool.and_assoc]

theorem foldl_or_eq_any (l : List (Nat → Bool)) (b : Bool) (i : Nat) :
    l.foldl (fun acc f => acc || f i) b = (b || l.any (fun f => f i)) := by
  induction l generalizing b with
  | nil => simp
  | cons f fs ih => simp [List.foldl_cons, List.any_cons, ih, Bool.or_assoc]

theorem all_map_gen {α β : Type} (l : List α) (f : α → β) (p : β → Bool) :
    (l.map f).all p = l.all (fun a => p (f a)) := by
  induction l with
  | nil => rfl
  | cons a as ih => simp [List.all_cons, ih]

theorem any_map_gen {α β : Type} (l : List α) (f : α → β) (p : β → Bool) :
    (l.map f).any p = l.any (fun a => p (f a)) := by
  induction l with
  | nil => rfl
  | cons a as ih => simp [List.any_cons, ih]

/-- Folding `reduce(and_, ...)` over the masks of a nonempty conjunction of
all-boolean predicates is the rowwise `all`. -/
theorem reduceM_maskAnd_canon {α : Type} (df : Dataset) (u : α → Nat → Bool) (q : α) (l : List α) :
    reduceM maskAnd ((q :: l).map (fun x => canonMask df (u x))) =
      .ok (canonMask df (fun i => (q :: l).all (fun x => u x i))) := by
  simp only [List.map_cons, reduceM]
  have hmm : l.map (fun x => canonMask df (u x)) = (l.map u).map (canonMask df) := by
    rw [List.map_map]; rfl
  rw [hmm, foldlM_maskAnd_canon]
  have hfun : (fun i => (l.map u).foldl (fun b f => b && f i) (u q i)) =
      (fun i => (q :: l).all (fun x => u x i)) := by
    funext i
    rw [foldl_and_eq_all, all_map_gen]
    simp [List.all_cons]
  rw [hfun]

/-- Folding `reduce(or_, ...)` over a nonempty list of all-boolean conjunction masks
is the rowwise `any`. -/
theorem reduceM_maskOr_canon {α : Type} (df : Dataset) (u : α → Nat → Bool) (q : α) (l : List α) :
    reduceM maskOr ((q :: l).map (fun x => canonMask df (u x))) =
      .ok (canonMask df (fun i => (q :: l).any (fun x => u x i))) := by
  simp only [List.map_cons, reduceM]
  have hmm : l.map (fun x => canonMask df (u x)) = (l.map u).map (canonMask df) := by
    rw [List.map_map]; rfl
  rw [hmm, foldlM_maskOr_canon]
  have hfun : (fun i => (l.map u).foldl (fun b f => b || f i) (u q i)) =
      (fun i => (q :: l).any (fun x => u x i)) := by
    funext i
    rw [foldl_or_eq_any, any_map_gen]
    simp [List.any_cons]
  rw [hfun]

theorem okBind {α β : Type} (a : α) (f : α → Except PdError β) :
    (Except.ok a : Except PdError α) >>= f = f a := rfl

/-- The inner loop over a conjunction of all-boolean predicates collects the
predicates' satisfaction masks. -/
theorem evalConjMasks_canon (df : Dataset) :
    ∀ (c : List Pred), (∀ p ∈ c, predOkBool df p = true) →
    evalConjMasks df c = .ok (c.map (fun p => canonMask df (predSat df p))) := by
  intro c
  induction c with
  | nil => intro _; rfl
  | cons p ps ih =>
    intro h
    have hp := evalPred_canon df p (h p (List.mem_cons_self p ps))
    have ht := ih (fun q hq => h q (List.mem_cons_of_mem p hq))
    simp only [evalConjMasks, hp, ht, List.map_cons]
    rfl

/-- The outer loop over conjunctions of all-boolean predicates collects the
conjunctions' rowwise-`all` masks. -/
theorem evalDisjMasks_canon (df : Dataset) :
    ∀ (cs : List (List Pred)), (∀ c ∈ cs, c ≠ []) →
    (∀ c ∈ cs, ∀ p ∈ c, predOkBool df p = true) →
    evalDisjMasks df cs =
      .ok (cs.map (fun c => canonMask df (fun i => c.all (fun p => predSat df p i)))) := by
  intro cs
  induction cs with
  | nil => intro _ _; rfl
  | cons c cs ih =>
    intro hcne hok
    obtain ⟨p, ps, rfl⟩ : ∃ p ps, c = p :: ps := by
      cases c with
      | nil => exact absurd rfl (hcne [] (List.mem_cons_self [] cs))
      | cons p ps => exact ⟨p, ps, rfl⟩
    have hc := evalConjMasks_canon df (p :: ps) (hok _ (List.mem_cons_self _ cs))
    have hr : reduceM maskAnd ((p :: ps).map (fun q => canonMask df (predSat df q))) =
        .ok (canonMask df (fun i => (p :: ps).all (fun q => predSat df q i))) :=
      reduceM_maskAnd_canon df (fun q => predSat df q) p ps
    have ht := ih (fun d hd => hcne d (List.mem_cons_of_mem _ hd))
      (fun d hd => hok d (List.mem_cons_of_mem _ hd))
    have h1 : evalDisjMasks df ((p :: ps) :: cs) =
        (do
          let ms ← evalConjMasks df (p :: ps)
          let m ← reduceM maskAnd ms
          let rest ← evalDisjMasks df cs
          pure (m :: rest)) := rfl
    rw [h1, hc, okBind, hr, okBind, ht, okBind]
    rfl

/-- Selecting with an all-boolean row mask keeps exactly the marked rows. -/
theorem selectMask_canon (df : Dataset) (f : Nat → Bool) :
    selectMask df (canonMask df f) = .ok (keepRows df ((List.range df.nrows).map f)) := by
  have hm := mapE_ok_of_forall
    (f := fun o : Option Bool => match o with
      | some b => .ok b
      | none => .error (.valueError "Cannot mask with non-boolean array containing NA / NaN values"))
    (v := fun o : Option Bool => o.getD false)
    ((List.range df.nrows).map (fun i => some (f i)))
    (by
      intro a ha
      simp only [List.mem_map] at ha
      obtain ⟨i, _, rfl⟩ := ha
      rfl)
  have hmap : (((List.range df.nrows).map (fun i => some (f i))).map
      (fun o : Option Bool => o.getD false)) = (List.range df.nrows).map f := by
    simp [List.map_map, Function.comp_def]
  simp only [canonMask, selectMask, toBoolMask, hm, hmap, okBind]
  rw [if_pos (by simp)]
  rfl

/-- Running `filter_pd` on an explicitly nested specification of nonempty
conjunctions of all-boolean predicates keeps exactly the rows on which some
conjunction's predicates all hold. -/
theorem filter_nested_run (df : Dataset) (cs : List (List Pred))
    (hne : cs ≠ []) (hcne : ∀ c ∈ cs, c ≠ [])
    (hok : ∀ c ∈ cs, ∀ p ∈ c, predOkBool df p = true) :
    filter_pd df (some (.nested cs)) =
      .ok (keepRows df ((List.range df.nrows).map
        (fun i => cs.any (fun c => c.all (fun p => predSat df p i))))) := by
  obtain ⟨c, cs', rfl⟩ : ∃ c cs', cs = c :: cs' := by
    cases cs with
    | nil => exact absurd rfl hne
    | cons c cs' => exact ⟨c, cs', rfl⟩
  obtain ⟨p, ps, rfl⟩ : ∃ p ps, c = p :: ps := by
    cases c with
    | nil => exact absurd rfl (hcne [] (List.mem_cons_self [] cs'))
    | cons p ps => exact ⟨p, ps, rfl⟩
  have hd := evalDisjMasks_canon df ((p :: ps) :: cs') hcne hok
  have hr : reduceM maskOr (((p :: ps) :: cs').map
      (fun c => canonMask df (fun i => c.all (fun q => predSat df q i)))) =
      .ok (canonMask df (fun i => ((p :: ps) :: cs').any
        (fun c => c.all (fun q => predSat df q i)))) :=
    reduceM_maskOr_canon df (fun c i => c.all (fun q => predSat df q i)) (p :: ps) cs'
  have h1 : filter_pd df (some (.nested ((p :: ps) :: cs'))) =
      (do
        let dms ← evalDisjMasks df ((p :: ps) :: cs')
        let m ← reduceM maskOr dms
        selectMask df m) := rfl
  rw [h1, hd, okBind, hr, okBind, selectMask_canon]

/-- C1: evaluation is an OR of ANDs — for every dataset and every nested
specification of nonempty conjunctions whose predicates each evaluate to an
all-boolean row mask, the returned dataset keeps exactly the rows in the
union, over the conjunctions, of the intersection, over that conjunction's
predicates, of the rows satisfying the predicate (rowwise `any` of `all`). -/
theorem filter_or_of_ands (df : Dataset) (cs : List (List Pred))
    (hne : cs ≠ []) (hcne : ∀ c ∈ cs, c ≠ [])
    (hok : ∀ c ∈ cs, ∀ p ∈ c, predOkBool df p = true) :
    filter_pd df (some (.nested cs)) =
      .ok (keepRows df ((List.range df.nrows).map
        (fun i => cs.any (fun c => c.all (fun p => predSat df p i))))) :=
  filter_nested_run df cs hne hcne hok

/-- The spec's concrete OR scenario: `[[("age","<",26)], [("name","=","carol")]]`. -/
def orCs : List (List Pred) :=
  [[("age", "<", .scalar (vI 26))], [("name", "=", .scalar (vS "carol"))]]

/-- Witness for C1 at the spec's concrete OR scenario. -/
theorem filter_or_of_ands_witness :
    orCs ≠ [] ∧ (∀ c ∈ orCs, c ≠ []) ∧
    (∀ c ∈ orCs, ∀ p ∈ c, predOkBool aliceDf p = true) ∧
    filter_pd aliceDf (some (.nested orCs)) =
      .ok (keepRows aliceDf ((List.range aliceDf.nrows).map
        (fun i => orCs.any (fun c => c.all (fun p => predSat aliceDf p i))))) :=
  ⟨by decide, by decide, by decide,
    filter_or_of_ands aliceDf orCs (by decide) (by decide) (by decide)⟩

/-- Reading an entry of a mask built by mapping `some ∘ g` over a vector. -/
theorem getD_map_some {α : Type} (xs : List α) (g : α → Bool) (i : Nat) (hi : i < xs.length) :
    ((xs.map (fun x => some (g x))).getD i none).getD false = g xs[i] := by
  simp [List.getD_eq_getElem?_getD, List.getElem?_map, List.getElem?_eq_getElem hi]

/-- A successful elementwise mapping succeeded on every element. -/
theorem mapE_ok_forall {α β : Type} {f : α → Except PdError β} :
    ∀ (l : List α) (m : List β), mapE f l = .ok m → ∀ a ∈ l, ∃ b, f a = .ok b := by
  intro l
  induction l with
  | nil => intro m _ a ha; cases ha
  | cons a as ih =>
    intro m hm b hb
    cases hfa : f a with
    | error e => rw [show mapE f (a :: as) = .error e by simp [mapE, hfa]; rfl] at hm; cases hm
    | ok v =>
      cases hrest : mapE f as with
      | error e =>
        rw [show mapE f (a :: as) = .error e by simp [mapE, hfa, hrest]; rfl] at hm
        cases hm
      | ok vs =>
        cases hb with
        | head => exact ⟨v, hfa⟩
        | tail _ hb' => exact ih vs hrest b hb'

/-- Unrolling `evalPred` to a flat match on the resolution and the lookup. -/
theorem evalPred_eq (df : Dataset) (col opn : String) (y : Operand) :
    evalPred df (col, opn, y) =
      (match resolveField df col, lookupOp opn with
      | .error e, _ => .error e
      | .ok _, none => .error (.keyError opn)
      | .ok t, some k => applyOp k t y) := by
  unfold evalPred
  cases resolveField df col <;> cases lookupOp opn <;> rfl

/-- A successful elementwise mapping preserves length. -/
theorem mapE_ok_len {α β : Type} {f : α → Except PdError β} :
    ∀ (l : List α) (m : List β), mapE f l = .ok m → m.length = l.length := by
  intro l
  induction l with
  | nil => intro m hm; cases hm; rfl
  | cons a as ih =>
    intro m hm
    cases hfa : f a with
    | error e => rw [show mapE f (a :: as) = .error e by simp [mapE, hfa]; rfl] at hm; cases hm
    | ok v =>
      cases hrest : mapE f as with
      | error e =>
        rw [show mapE f (a :: as) = .error e by simp [mapE, hfa, hrest]; rfl] at hm
        cases hm
      | ok vs =>
        rw [show mapE f (a :: as) = .ok (v :: vs) by simp [mapE, hfa, hrest]; rfl] at hm
        cases hm
        simp [ih vs hrest]

/-- Mapping the grid constructor over a result never yields a row vector. -/
theorem map_grid_not_vec (e : Except PdError (List (List (Option Bool)))) (m : List (Option Bool)) :
    Except.map Mask.grid e ≠ .ok (.vec m) := by
  cases e <;> simp [Except.map]

/-- An operator applied to a whole DataFrame never yields a row-vector
mask. -/
theorem applyOp_whole_not_vec (k : OpKind) (f : PdFrame) (y : Operand) (m : List (Option Bool)) :
    applyOp k (.whole f) y ≠ .ok (.vec m) := by
  unfold applyOp
  cases k <;>
    first
    | exact map_grid_not_vec _ _
    | simp

/-- Dissecting a predicate that evaluates to an all-boolean row mask: its
field resolved to a value vector, its operator token was found, and the
vector-level application succeeded with a full-length all-boolean mask. -/
theorem predOk_resolve_vec (df : Dataset) (col opn : String) (y : Operand)
    (h : predOkBool df (col, opn, y) = true) :
    ∃ xs k m, resolveField df col = .ok (.vec xs) ∧ lookupOp opn = some k ∧
      applySeriesK k xs y = .ok m ∧ evalPred df (col, opn, y) = .ok (.vec m) ∧
      m.all Option.isSome = true ∧ m.length = df.nrows := by
  unfold predOkBool at h
  cases hres : resolveField df col with
  | error e =>
    rw [show evalPred df (col, opn, y) = .error e by rw [evalPred_eq, hres]] at h
    exact absurd h (by simp)
  | ok t =>
    cases hk : lookupOp opn with
    | none =>
      rw [show evalPred df (col, opn, y) = .error (.keyError opn) by rw [evalPred_eq, hres, hk]] at h
      exact absurd h (by simp)
    | some k =>
      have hEv : evalPred df (col, opn, y) = applyOp k t y := by rw [evalPred_eq, hres, hk]
      rw [hEv] at h
      cases t with
      | whole f =>
        exfalso
        cases hap : applyOp k (.whole f) y with
        | error e => rw [hap] at h; simp at h
        | ok mk =>
          cases mk with
          | grid g => rw [hap] at h; simp at h
          | vec m => exact applyOp_whole_not_vec k f y m hap
      | vec xs =>
        cases hap : applySeriesK k xs y with
        | error e =>
          rw [show applyOp k (.vec xs) y = .error e by simp [applyOp, hap, Except.map]] at h
          exact absurd h (by simp)
        | ok m =>
          have hAp : applyOp k (.vec xs) y = .ok (.vec m) := by simp [applyOp, hap, Except.map]
          rw [hAp] at h
          simp only [Bool.and_eq_true, beq_iff_eq] at h
          exact ⟨xs, k, m, rfl, rfl, hap, by rw [hEv, hAp], h.1, h.2⟩

/-- Running `filter_pd` on a single-predicate flat specification keeps
exactly the rows the predicate marks. -/
theorem filter_single_run (df : Dataset) (p : Pred) (h : predOkBool df p = true) :
    filter_pd df (some (.flat [p])) =
      .ok (keepRows df ((List.range df.nrows).map (fun i => predSat df p i))) := by
  have h1 : filter_pd df (some (.flat [p])) = filter_pd df (some (.nested [[p]])) := rfl
  rw [h1, filter_nested_run df [[p]] (by simp) (by simp)
    (by intro c hc q hq; simp at hc; subst hc; simp at hq; subst hq; exact h)]
  congr 2
  simp

/-- The mask `~x.isin(y)` is the entrywise flip of `x.isin(y)`: whenever an `in`
predicate evaluates to an all-boolean row mask, the matching `not in`
predicate also does, with every row's mark negated. -/
theorem notin_flip (df : Dataset) (col : String) (y : Operand)
    (h : predOkBool df (col, "in", y) = true) :
    predOkBool df (col, "not in", y) = true ∧
    ∀ i, i < df.nrows → predSat df (col, "not in", y) i = !(predSat df (col, "in", y) i) := by
  obtain ⟨xs, k, m, hres, hk, hap, hev, hall, hlen⟩ := predOk_resolve_vec df col "in" y h
  have hkk : k = OpKind.isin := by
    have h2 : some k = some OpKind.isin := by rw [← hk]; rfl
    exact Option.some.inj h2
  subst hkk
  cases y with
  | scalar v =>
    rw [show applySeriesK OpKind.isin xs (.scalar v) = .error .typeError from rfl] at hap
    simp at hap
  | coll vs =>
    have hm : m = xs.map (fun x => some (vs.any (isinMatch x))) := by
      have h2 : applySeriesK OpKind.isin xs (.coll vs) =
          .ok (xs.map (fun x => some (vs.any (isinMatch x)))) := rfl
      rw [h2] at hap
      exact (Except.ok.inj hap).symm
    have hlen2 : xs.length = df.nrows := by rw [hm] at hlen; simpa using hlen
    have hevN : evalPred df (col, "not in", .coll vs) =
        .ok (.vec (xs.map (fun x => some (!(vs.any (isinMatch x)))))) := by
      rw [evalPred_eq, hres]; rfl
    constructor
    · unfold predOkBool
      rw [hevN]
      simp [hlen2]
    · intro i hi
      have hi2 : i < xs.length := by omega
      have hsatN : predSat df (col, "not in", .coll vs) i = !(vs.any (isinMatch xs[i])) := by
        unfold predSat
        rw [hevN]
        exact getD_map_some xs (fun x => !(vs.any (isinMatch x))) i hi2
      have hsatP : predSat df (col, "in", .coll vs) i = vs.any (isinMatch xs[i]) := by
        unfold predSat
        rw [hev, hm]
        exact getD_map_some xs (fun x => vs.any (isinMatch x)) i hi2
      rw [hsatN, hsatP]

/-- The mask `~x.str.contains(...)` is the entrywise flip of `x.str.contains(...)`:
whenever a `not contains` predicate evaluates successfully (which forces
every cell's `contains` entry to be boolean, since `~` raises on `NaN`), the
matching `contains` predicate evaluates to the negated mask. -/
theorem ncontains_flip (df : Dataset) (col : String) (y : Operand)
    (h : predOkBool df (col, "not contains", y) = true) :
    predOkBool df (col, "contains", y) = true ∧
    ∀ i, i < df.nrows →
      predSat df (col, "not contains", y) i = !(predSat df (col, "contains", y) i) := by
  obtain ⟨xs, k, m, hres, hk, hap, hev, hall, hlen⟩ :=
    predOk_resolve_vec df col "not contains" y h
  have hkk : k = OpKind.ncontains := by
    have h2 : some k = some OpKind.ncontains := by rw [← hk]; rfl
    exact Option.some.inj h2
  subst hkk
  have hapx : mapE (fun o => match o with
      | some b => .ok (some (!b))
      | none => .error PdError.typeError)
      (xs.map (fun x => containsElem x (operandStr y))) = .ok m := hap
  have hsome := mapE_ok_forall _ m hapx
  have hcb : ∀ x ∈ xs, containsElem x (operandStr y) =
      some ((containsElem x (operandStr y)).getD false) := by
    intro x hx
    obtain ⟨b, hb⟩ := hsome (containsElem x (operandStr y)) (List.mem_map_of_mem _ hx)
    cases hco : containsElem x (operandStr y) with
    | none => rw [hco] at hb; simp at hb
    | some c => simp
  have hmapc : xs.map (fun x => containsElem x (operandStr y)) =
      xs.map (fun x => some ((containsElem x (operandStr y)).getD false)) :=
    List.map_congr_left hcb
  have hm : m = xs.map (fun x => some (!((containsElem x (operandStr y)).getD false))) := by
    have h2 := mapE_ok_of_forall (f := fun o => match o with
        | some b => .ok (some (!b))
        | none => .error PdError.typeError)
      (v := fun o => some (!(o.getD false)))
      (xs.map (fun x => some ((containsElem x (operandStr y)).getD false)))
      (by
        intro a ha
        simp only [List.mem_map] at ha
        obtain ⟨x, _, rfl⟩ := ha
        rfl)
    rw [hmapc, h2] at hapx
    have h3 := Except.ok.inj hapx
    rw [← h3, List.map_map]
    rfl
  have hlen2 : xs.length = df.nrows := by rw [hm] at hlen; simpa using hlen
  have hevC : evalPred df (col, "contains", y) =
      .ok (.vec (xs.map (fun x => containsElem x (operandStr y)))) := by
    rw [evalPred_eq, hres]; rfl
  rw [hmapc] at hevC
  rw [hm] at hev
  constructor
  · unfold predOkBool
    rw [hevC]
    simp [hlen2]
  · intro i hi
    have hi2 : i < xs.length := by omega
    have hsatN : predSat df (col, "not contains", y) i =
        !((containsElem xs[i] (operandStr y)).getD false) := by
      unfold predSat
      rw [hev]
      exact getD_map_some xs (fun x => !((containsElem x (operandStr y)).getD false)) i hi2
    have hsatP : predSat df (col, "contains", y) i =
        ((containsElem xs[i] (operandStr y)).getD false) := by
      unfold predSat
      rw [hevC]
      exact getD_map_some xs (fun x => ((containsElem x (operandStr y)).getD false)) i hi2
    rw [hsatN, hsatP]

/-- C6: negation pairing — for every dataset, field and operand on which the
predicates evaluate to genuine row masks, the rows kept by a single `not in`
predicate are exactly those not kept by the matching `in` predicate, and the
rows kept by `not contains` are exactly those not kept by `contains` (the
masks are entrywise complements; on rows whose cell is null, `contains`
produces a `NaN` mask entry and the `not contains` evaluation raises, which
is why both sides are required to evaluate). -/
theorem filter_negation_pairing (df : Dataset) (col : String) (y1 y2 : Operand)
    (h1 : predOkBool df (col, "in", y1) = true)
    (h2 : predOkBool df (col, "not contains", y2) = true) :
    (filter_pd df (some (.flat [(col, "in", y1)])) =
        .ok (keepRows df ((List.range df.nrows).map
          (fun i => predSat df (col, "in", y1) i))) ∧
      filter_pd df (some (.flat [(col, "not in", y1)])) =
        .ok (keepRows df ((List.range df.nrows).map
          (fun i => !(predSat df (col, "in", y1) i))))) ∧
    (filter_pd df (some (.flat [(col, "contains", y2)])) =
        .ok (keepRows df ((List.range df.nrows).map
          (fun i => predSat df (col, "contains", y2) i))) ∧
      filter_pd df (some (.flat [(col, "not contains", y2)])) =
        .ok (keepRows df ((List.range df.nrows).map
          (fun i => !(predSat df (col, "contains", y2) i))))) := by
  obtain ⟨hN1, hflip1⟩ := notin_flip df col y1 h1
  obtain ⟨hC2, hflip2⟩ := ncontains_flip df col y2 h2
  refine ⟨⟨filter_single_run df _ h1, ?_⟩, filter_single_run df _ hC2, ?_⟩
  · rw [filter_single_run df _ hN1]
    congr 2
    apply List.map_congr_left
    intro i hi
    exact hflip1 i (List.mem_range.mp hi)
  · rw [filter_single_run df _ h2]
    congr 2
    apply List.map_congr_left
    intro i hi
    exact hflip2 i (List.mem_range.mp hi)

/-- Witness for C6 at a concrete input. -/
theorem filter_negation_pairing_witness :
    predOkBool aliceDf ("name", "in", .coll [vS "bob"]) = true ∧
    predOkBool aliceDf ("name", "not contains", .scalar (vS "a")) = true ∧
    filter_pd aliceDf (some (.flat [("name", "not in", .coll [vS "bob"])])) =
      .ok (keepRows aliceDf ((List.range aliceDf.nrows).map
        (fun i => !(predSat aliceDf ("name", "in", .coll [vS "bob"]) i)))) :=
  ⟨by decide, by decide,
    ((filter_negation_pairing aliceDf "name" (.coll [vS "bob"]) (.scalar (vS "a"))
      (by decide) (by decide)).1).2⟩

theorem errBind {α β : Type} (e : PdError) (f : α → Except PdError β) :
    (Except.error e : Except PdError α) >>= f = .error e := rfl

theorem isOk_exists {α : Type} {x : Except PdError α} (h : x.isOk = true) :
    ∃ a, x = .ok a := by
  cases x with
  | ok a => exact ⟨a, rfl⟩
  | error e => simp [Except.isOk, Except.toBool] at h

/-- A field failing all three resolution tests raises the `ValueError` naming
it. -/
theorem resolveField_error_of (df : Dataset) (col : String)
    (h1 : df.indexNames.contains (some col) = false)
    (h2 : df.colNames.contains col = false)
    (h3 : nameMatches col df.nameSlot = false) :
    resolveField df col = .error (.valueError (colErrMsg col)) := by
  unfold resolveField
  rw [if_neg (by rw [h1]; simp), if_neg (by rw [h2]; simp), if_neg (by rw [h3]; simp)]

/-- A resolution failure is always the `ValueError` naming the field. -/
theorem resolveField_error_msg (df : Dataset) (col : String)
    (h : (resolveField df col).isOk = false) :
    resolveField df col = .error (.valueError (colErrMsg col)) := by
  by_cases c1 : df.indexNames.contains (some col) = true
  · rw [resolveField, if_pos c1] at h; simp [Except.isOk, Except.toBool] at h
  · by_cases c2 : df.colNames.contains col = true
    · rw [resolveField, if_neg c1, if_pos c2] at h; simp [Except.isOk, Except.toBool] at h
    · by_cases c3 : nameMatches col df.nameSlot = true
      · rw [resolveField, if_neg c1, if_neg c2, if_pos c3] at h
        simp [Except.isOk, Except.toBool] at h
      · rw [resolveField, if_neg c1, if_neg c2, if_neg c3]

/-- An unresolvable field makes the predicate raise the field `ValueError`,
whatever its operator token. -/
theorem evalPred_field_error (df : Dataset) (col opn : String) (y : Operand)
    (hcol : (resolveField df col).isOk = false) :
    evalPred df (col, opn, y) = .error (.valueError (colErrMsg col)) := by
  rw [evalPred_eq, resolveField_error_msg df col hcol]

/-- A resolvable field with an unknown operator token raises the `KeyError`
carrying the token. -/
theorem evalPred_op_error (df : Dataset) (col opn : String) (y : Operand)
    (hcol : (resolveField df col).isOk = true) (hop : lookupOp opn = none) :
    evalPred df (col, opn, y) = .error (.keyError opn) := by
  obtain ⟨t, ht⟩ := isOk_exists hcol
  rw [evalPred_eq, ht, hop]

/-- Predicates are evaluated left to right within a conjunction: after a run
of successfully evaluating predicates, the first raised exception is the
whole inner loop's exception. -/
theorem evalConjMasks_append_error (df : Dataset) (e : PdError) :
    ∀ (c1 : List Pred), (∀ p ∈ c1, (evalPred df p).isOk = true) →
    ∀ (rest : List Pred), evalConjMasks df rest = .error e →
    evalConjMasks df (c1 ++ rest) = .error e := by
  intro c1
  induction c1 with
  | nil => intro _ rest hr; simpa using hr
  | cons p ps ih =>
    intro h rest hr
    obtain ⟨m, hm⟩ := isOk_exists (h p (List.mem_cons_self p ps))
    have ht := ih (fun q hq => h q (List.mem_cons_of_mem p hq)) rest hr
    have h1 : evalConjMasks df ((p :: ps) ++ rest) =
        (do
          let m0 ← evalPred df p
          let ms ← evalConjMasks df (ps ++ rest)
          pure (m0 :: ms)) := rfl
    rw [h1, hm, okBind, ht, errBind]

/-- A predicate raising makes its conjunction's inner loop raise. -/
theorem evalConjMasks_cons_error (df : Dataset) (q : Pred) (c2 : List Pred) (e : PdError)
    (h : evalPred df q = .error e) :
    evalConjMasks df (q :: c2) = .error e := by
  have h1 : evalConjMasks df (q :: c2) =
      (do
        let m0 ← evalPred df q
        let ms ← evalConjMasks df c2
        pure (m0 :: ms)) := rfl
  rw [h1, h, errBind]

/-- A conjunction is fully processed — inner loop and `reduce(and_, ...)` —
before the next conjunction is looked at. -/
def conjOk (df : Dataset) (c : List Pred) : Bool :=
  (do
    let ms ← evalConjMasks df c
    reduceM maskAnd ms).isOk

/-- A conjunction that processes successfully is nonempty (the `reduce` of an
empty sequence raises `TypeError`). -/
theorem conjOk_ne_nil (df : Dataset) (c : List Pred) (h : conjOk df c = true) : c ≠ [] := by
  intro hc
  subst hc
  simp [conjOk, Except.isOk, Except.toBool, reduceM, okBind] at h
  cases h

/-- Conjunctions are evaluated left to right: after a run of successfully
processed conjunctions, the first raised exception is the whole outer loop's
exception. -/
theorem evalDisjMasks_append_error (df : Dataset) (e : PdError) :
    ∀ (cs1 : List (List Pred)), (∀ c ∈ cs1, conjOk df c = true) →
    ∀ (rest : List (List Pred)), evalDisjMasks df rest = .error e →
    evalDisjMasks df (cs1 ++ rest) = .error e := by
  intro cs1
  induction cs1 with
  | nil => intro _ rest hr; simpa using hr
  | cons c cs ih =>
    intro h rest hr
    have hc := h c (List.mem_cons_self c cs)
    unfold conjOk at hc
    obtain ⟨ms, hms⟩ : ∃ ms, evalConjMasks df c = .ok ms := by
      cases hms : evalConjMasks df c with
      | error e2 => rw [hms, errBind] at hc; simp [Except.isOk, Except.toBool] at hc
      | ok ms => exact ⟨ms, rfl⟩
    rw [hms, okBind] at hc
    obtain ⟨m0, hm0⟩ := isOk_exists hc
    have ht := ih (fun d hd => h d (List.mem_cons_of_mem c hd)) rest hr
    have h1 : evalDisjMasks df ((c :: cs) ++ rest) =
        (do
          let ms2 ← evalConjMasks df c
          let m2 ← reduceM maskAnd ms2
          let rest2 ← evalDisjMasks df (cs ++ rest)
          pure (m2 :: rest2)) := rfl
    rw [h1, hms, okBind, hm0, okBind, ht, errBind]

/-- A conjunction whose inner loop raises makes the outer loop raise. -/
theorem evalDisjMasks_cons_error (df : Dataset) (c : List Pred) (cs : List (List Pred))
    (e : PdError) (h : evalConjMasks df c = .error e) :
    evalDisjMasks df (c :: cs) = .error e := by
  have h1 : evalDisjMasks df (c :: cs) =
      (do
        let ms2 ← evalConjMasks df c
        let m2 ← reduceM maskAnd ms2
        let rest2 ← evalDisjMasks df cs
        pure (m2 :: rest2)) := rfl
  rw [h1, h, errBind]

/-- An exception in the mask-building loops is the whole call's exception. -/
theorem filter_nested_error (df : Dataset) (c : List Pred) (cs' : List (List Pred))
    (e : PdError) (hhead : c ≠ []) (h : evalDisjMasks df (c :: cs') = .error e) :
    filter_pd df (some (.nested (c :: cs'))) = .error e := by
  obtain ⟨p, ps, rfl⟩ : ∃ p ps, c = p :: ps := by
    cases c with
    | nil => exact absurd rfl hhead
    | cons p ps => exact ⟨p, ps, rfl⟩
  have h1 : filter_pd df (some (.nested ((p :: ps) :: cs'))) =
      (do
        let dms ← evalDisjMasks df ((p :: ps) :: cs')
        let m ← reduceM maskOr dms
        selectMask df m) := rfl
  rw [h1, h, errBind]

/-- C7 (amended): an unresolvable field makes evaluation fail with the
`ValueError` whose message names the offending field (and nothing else — in
particular it does not list the available fields), provided every predicate
evaluated before it succeeded and every earlier conjunction was processed
successfully. -/
theorem field_error_message (df : Dataset) (cs1 cs2 : List (List Pred))
    (c1 c2 : List Pred) (col opn : String) (y : Operand)
    (hprev : ∀ c ∈ cs1, conjOk df c = true)
    (hprevp : ∀ p ∈ c1, (evalPred df p).isOk = true)
    (hcol : (resolveField df col).isOk = false) :
    filter_pd df (some (.nested (cs1 ++ (c1 ++ (col, opn, y) :: c2) :: cs2))) =
      .error (.valueError (colErrMsg col)) := by
  have hoff := evalPred_field_error df col opn y hcol
  have hconj : evalConjMasks df (c1 ++ (col, opn, y) :: c2) =
      .error (.valueError (colErrMsg col)) :=
    evalConjMasks_append_error df _ c1 hprevp _ (evalConjMasks_cons_error df _ c2 _ hoff)
  have hdisj0 : evalDisjMasks df ((c1 ++ (col, opn, y) :: c2) :: cs2) =
      .error (.valueError (colErrMsg col)) :=
    evalDisjMasks_cons_error df _ cs2 _ hconj
  cases cs1 with
  | nil => exact filter_nested_error df _ cs2 _ (by simp) hdisj0
  | cons c0 cs1' =>
    have hdisj := evalDisjMasks_append_error df _ (c0 :: cs1') hprev _ hdisj0
    have hc0 := conjOk_ne_nil df c0 (hprev c0 (List.mem_cons_self c0 cs1'))
    exact filter_nested_error df c0 _ _ hc0 hdisj

/-- Witness for C7 at a concrete input: an earlier conjunction and earlier
predicates succeed, and the bad field `"zzz"` raises its `ValueError`. -/
theorem field_error_message_witness :
    (∀ c ∈ [[(("qqq", "=", .scalar (vI 5)) : Pred)]], conjOk qDf c = true) ∧
    (∀ p ∈ [(("qqq", ">", .scalar (vI 0)) : Pred)], (evalPred qDf p).isOk = true) ∧
    (resolveField qDf "zzz").isOk = false ∧
    filter_pd qDf (some (.nested ([[("qqq", "=", .scalar (vI 5))]] ++
        ([("qqq", ">", .scalar (vI 0))] ++ ("zzz", "=", .scalar (vI 0)) ::
          ([] : List Pred)) :: []))) =
      .error (.valueError (colErrMsg "zzz")) :=
  ⟨by decide, by decide, by decide,
    field_error_message qDf [[("qqq", "=", .scalar (vI 5))]] [] [("qqq", ">", .scalar (vI 0))]
      [] "zzz" "=" (.scalar (vI 0)) (by decide) (by decide) (by decide)⟩

/-- C8 (amended): a resolvable field with an operator token outside the
vocabulary makes evaluation fail with the `KeyError` carrying the bad token,
provided every predicate evaluated before it succeeded and every earlier
conjunction was processed successfully. -/
theorem operator_error_raised (df : Dataset) (cs1 cs2 : List (List Pred))
    (c1 c2 : List Pred) (col opn : String) (y : Operand)
    (hprev : ∀ c ∈ cs1, conjOk df c = true)
    (hprevp : ∀ p ∈ c1, (evalPred df p).isOk = true)
    (hcol : (resolveField df col).isOk = true)
    (hop : lookupOp opn = none) :
    filter_pd df (some (.nested (cs1 ++ (c1 ++ (col, opn, y) :: c2) :: cs2))) =
      .error (.keyError opn) := by
  have hoff := evalPred_op_error df col opn y hcol hop
  have hconj : evalConjMasks df (c1 ++ (col, opn, y) :: c2) = .error (.keyError opn) :=
    evalConjMasks_append_error df _ c1 hprevp _ (evalConjMasks_cons_error df _ c2 _ hoff)
  have hdisj0 : evalDisjMasks df ((c1 ++ (col, opn, y) :: c2) :: cs2) =
      .error (.keyError opn) :=
    evalDisjMasks_cons_error df _ cs2 _ hconj
  cases cs1 with
  | nil => exact filter_nested_error df _ cs2 _ (by simp) hdisj0
  | cons c0 cs1' =>
    have hdisj := evalDisjMasks_append_error df _ (c0 :: cs1') hprev _ hdisj0
    have hc0 := conjOk_ne_nil df c0 (hprev c0 (List.mem_cons_self c0 cs1'))
    exact filter_nested_error df c0 _ _ hc0 hdisj

/-- Witness for C8 at a concrete input: the unknown token `"~="` on the
resolvable column `"qqq"` raises its `KeyError`. -/
theorem operator_error_raised_witness :
    (∀ c ∈ ([] : List (List Pred)), conjOk qDf c = true) ∧
    (∀ p ∈ ([] : List Pred), (evalPred qDf p).isOk = true) ∧
    (resolveField qDf "qqq").isOk = true ∧
    lookupOp "~=" = none ∧
    filter_pd qDf (some (.nested ([] ++ ([] ++ ("qqq", "~=", .scalar (vI 0)) :: []) :: []))) =
      .error (.keyError "~=") :=
  ⟨by decide, by decide, by decide, by decide,
    operator_error_raised qDf [] [] [] [] "qqq" "~=" (.scalar (vI 0))
      (by decide) (by decide) (by decide) (by decide)⟩

/-- C10: a predicate with both an unresolvable field and an unknown operator
token fails with the field-resolution `ValueError`, not the operator
`KeyError`: the field is resolved before the operator lookup. -/
theorem field_checked_before_operator (df : Dataset) (col opn : String) (y : Operand)
    (hcol : (resolveField df col).isOk = false) (hop : lookupOp opn = none) :
    evalPred df (col, opn, y) = .error (.valueError (colErrMsg col)) ∧
    filter_pd df (some (.flat [(col, opn, y)])) = .error (.valueError (colErrMsg col)) := by
  have hoff := evalPred_field_error df col opn y hcol
  refine ⟨hoff, ?_⟩
  have h1 : filter_pd df (some (.flat [(col, opn, y)])) =
      filter_pd df (some (.nested [[(col, opn, y)]])) := rfl
  rw [h1]
  exact filter_nested_error df [(col, opn, y)] [] _ (by simp)
    (evalDisjMasks_cons_error df _ [] _ (evalConjMasks_cons_error df _ [] _ hoff))

/-- Witness for C10 at a concrete input: field `"zzz"` is unresolvable and
`"~="` is unknown; the raised error is the field `ValueError`. -/
theorem field_checked_before_operator_witness :
    (resolveField qDf "zzz").isOk = false ∧ lookupOp "~=" = none ∧
    filter_pd qDf (some (.flat [("zzz", "~=", .scalar (vI 0))])) =
      .error (.valueError (colErrMsg "zzz")) :=
  ⟨by decide, by decide,
    (field_checked_before_operator qDf "zzz" "~=" (.scalar (vI 0)) (by decide) (by decide)).2⟩

/-- C9 (amended): for a field matching no index level and no column, the
`series = df` branch fires exactly when the field equals the name slot — the
declared name for a Series (an unnamed series has name `None`, which no
string equals, the empty string included), the string `""` for a DataFrame
(for which the branch selects the whole frame instead of failing); in every
remaining case evaluation fails with the `ValueError` naming the field. -/
theorem series_name_resolution (df : Dataset) (col opn : String) (y : Operand)
    (hni : df.indexNames.contains (some col) = false)
    (hnc : df.colNames.contains col = false) :
    (∀ s : PdSeries, df = .series s → s.name = some col →
      resolveField df col = .ok (.vec (s.entries.map (fun e => e.2)))) ∧
    (∀ f : PdFrame, df = .frame f → col = "" →
      resolveField df col = .ok (.whole f)) ∧
    (nameMatches col df.nameSlot = false →
      filter_pd df (some (.flat [(col, opn, y)])) =
        .error (.valueError (colErrMsg col))) := by
  refine ⟨?_, ?_, ?_⟩
  · intro s hdf hname
    subst hdf
    unfold resolveField
    rw [if_neg (by rw [hni]; simp), if_neg (by rw [hnc]; simp),
      if_pos (by simp [Dataset.nameSlot, hname, nameMatches])]
    rfl
  · intro f hdf hcol
    subst hdf
    subst hcol
    unfold resolveField
    rw [if_neg (by rw [hni]; simp), if_neg (by rw [hnc]; simp),
      if_pos (by simp [Dataset.nameSlot, nameMatches])]
    rfl
  · intro hnm
    have hres := resolveField_error_of df col hni hnc hnm
    have h1 : filter_pd df (some (.flat [(col, opn, y)])) =
        filter_pd df (some (.nested [[(col, opn, y)]])) := rfl
    rw [h1]
    exact filter_nested_error df [(col, opn, y)] [] _ (by simp)
      (evalDisjMasks_cons_error df _ [] _ (evalConjMasks_cons_error df _ [] _
        (by rw [evalPred_eq, hres])))

/-- A one-entry Series named `"val"`. -/
def namedS : PdSeries :=
  { name := some "val", indexNames := [none], entries := [([vI 0], vI 7)] }

/-- Witness for C9 at a concrete input: a bare Series named `"val"` resolves
the field `"val"` to its own values. -/
theorem series_name_resolution_witness :
    (Dataset.series namedS).indexNames.contains (some "val") = false ∧
    (Dataset.series namedS).colNames.contains "val" = false ∧
    resolveField (.series namedS) "val" = .ok (.vec (namedS.entries.map (fun e => e.2))) :=
  ⟨by decide, by decide,
    (series_name_resolution (.series namedS) "val" "=" (.scalar (vI 7))
      (by decide) (by decide)).1 namedS rfl rfl⟩

def Mask.isVec : Mask → Bool
  | .vec _ => true
  | .grid _ => false

/-- A predicate whose field does not resolve to the whole frame evaluates (if
at all) to a row-vector mask. -/
theorem evalPred_ok_isVec (df : Dataset) (p : Pred)
    (hw : resolvesWhole df p.1 = false) (m : Mask) (h : evalPred df p = .ok m) :
    m.isVec = true := by
  obtain ⟨col, opn, y⟩ := p
  rw [evalPred_eq] at h
  unfold resolvesWhole at hw
  cases hres : resolveField df col with
  | error e =>
    rw [hres] at h
    have h2 : (Except.error e : Except PdError Mask) = .ok m := h
    cases h2
  | ok t =>
    cases hk : lookupOp opn with
    | none =>
      rw [hres, hk] at h
      have h2 : (Except.error (PdError.keyError opn) : Except PdError Mask) = .ok m := h
      cases h2
    | some k =>
      rw [hres, hk] at h
      have h2 : applyOp k t y = .ok m := h
      cases t with
      | whole f => rw [hres] at hw; simp at hw
      | vec xs =>
        cases hap : applySeriesK k xs y with
        | error e =>
          have h3 : applyOp k (.vec xs) y = .error e := by simp [applyOp, hap, Except.map]
          rw [h3] at h2; cases h2
        | ok mb =>
          have h3 : applyOp k (.vec xs) y = .ok (.vec mb) := by simp [applyOp, hap, Except.map]
          rw [h3] at h2
          cases h2
          rfl

/-- Every mask produced by a conjunction of non-whole-frame predicates is a
row vector. -/
theorem evalConjMasks_ok_isVec (df : Dataset) :
    ∀ (c : List Pred) (ms : List Mask),
    (∀ p ∈ c, resolvesWhole df p.1 = false) →
    evalConjMasks df c = .ok ms → ∀ m ∈ ms, m.isVec = true := by
  intro c
  induction c with
  | nil =>
    intro ms _ h m hm
    cases h
    cases hm
  | cons p ps ih =>
    intro ms hw h m hm
    cases hp : evalPred df p with
    | error e =>
      rw [evalConjMasks_cons_error df p ps e hp] at h
      cases h
    | ok m0 =>
      cases hrest : evalConjMasks df ps with
      | error e =>
        have hbad : evalConjMasks df (p :: ps) = .error e := by
          have h1 : evalConjMasks df (p :: ps) =
              (do
                let m1 ← evalPred df p
                let ms1 ← evalConjMasks df ps
                pure (m1 :: ms1)) := rfl
          rw [h1, hp, okBind, hrest, errBind]
        rw [hbad] at h
        cases h
      | ok ms0 =>
        have hcons : evalConjMasks df (p :: ps) = .ok (m0 :: ms0) := by
          have h1 : evalConjMasks df (p :: ps) =
              (do
                let m1 ← evalPred df p
                let ms1 ← evalConjMasks df ps
                pure (m1 :: ms1)) := rfl
          rw [h1, hp, okBind, hrest, okBind]
          rfl
        rw [hcons] at h
        injection h with h3
        subst h3
        cases hm with
        | head => exact evalPred_ok_isVec df p (hw p (List.mem_cons_self p ps)) m hp
        | tail _ hm' =>
          exact ih ms0 (fun q hq => hw q (List.mem_cons_of_mem p hq)) hrest m hm'

/-- Combining with `&` keeps a row-vector mask a row vector. -/
theorem maskAnd_ok_isVec (a b m : Mask) (h : maskAnd a b = .ok m) (ha : a.isVec = true) :
    m.isVec = true := by
  cases a with
  | grid g => simp [Mask.isVec] at ha
  | vec va =>
    cases b with
    | grid g =>
      have h2 : (Except.error PdError.alignError : Except PdError Mask) = .ok m := h
      cases h2
    | vec vb =>
      by_cases hl : va.length = vb.length
      · have h2 : Except.map Mask.vec (mapE (fun p => andOB p.1 p.2) (va.zip vb)) = .ok m := by
          rw [← h]; simp [maskAnd, hl]
        cases he : mapE (fun p => andOB p.1 p.2) (va.zip vb) with
        | error e => rw [he] at h2; simp [Except.map] at h2
        | ok l =>
          rw [he] at h2
          simp [Except.map] at h2
          rw [← h2]
          rfl
      · have h2 : (Except.error PdError.alignError : Except PdError Mask) = .ok m := by
          rw [← h]; simp [maskAnd, hl]
        cases h2

/-- Combining with `|` keeps a row-vector mask a row vector. -/
theorem maskOr_ok_isVec (a b m : Mask) (h : maskOr a b = .ok m) (ha : a.isVec = true) :
    m.isVec = true := by
  cases a with
  | grid g => simp [Mask.isVec] at ha
  | vec va =>
    cases b with
    | grid g =>
      have h2 : (Except.error PdError.alignError : Except PdError Mask) = .ok m := h
      cases h2
    | vec vb =>
      by_cases hl : va.length = vb.length
      · have h2 : Except.map Mask.vec (mapE (fun p => orOB p.1 p.2) (va.zip vb)) = .ok m := by
          rw [← h]; simp [maskOr, hl]
        cases he : mapE (fun p => orOB p.1 p.2) (va.zip vb) with
        | error e => rw [he] at h2; simp [Except.map] at h2
        | ok l =>
          rw [he] at h2
          simp [Except.map] at h2
          rw [← h2]
          rfl
      · have h2 : (Except.error PdError.alignError : Except PdError Mask) = .ok m := by
          rw [← h]; simp [maskOr, hl]
        cases h2

/-- A left fold by a vector-preserving combiner keeps a row-vector
accumulator a row vector. -/
theorem foldlM_isVec (f : Mask → Mask → Except PdError Mask)
    (hf : ∀ a b m, f a b = .ok m → a.isVec = true → m.isVec = true) :
    ∀ (ms : List Mask) (init m : Mask), init.isVec = true →
    ms.foldlM f init = .ok m → m.isVec = true := by
  intro ms
  induction ms with
  | nil =>
    intro init m hi h
    cases h
    exact hi
  | cons x xs ih =>
    intro init m hi h
    rw [List.foldlM_cons] at h
    cases hs : f init x with
    | error e => rw [hs, errBind] at h; cases h
    | ok mid => rw [hs, okBind] at h; exact ih mid m (hf init x mid hs hi) h

/-- Reduction by a vector-preserving combiner over row-vector masks yields a
row vector. -/
theorem reduceM_isVec (f : Mask → Mask → Except PdError Mask)
    (hf : ∀ a b m, f a b = .ok m → a.isVec = true → m.isVec = true)
    (ms : List Mask) (m : Mask)
    (hall : ∀ x ∈ ms, x.isVec = true) (h : reduceM f ms = .ok m) : m.isVec = true := by
  cases ms with
  | nil => cases h
  | cons x xs =>
    exact foldlM_isVec f hf xs x m (hall x (List.mem_cons_self x xs)) h

/-- Every mask produced by the outer loop over non-whole-frame predicates is
a row vector. -/
theorem evalDisjMasks_ok_isVec (df : Dataset) :
    ∀ (cs : List (List Pred)) (dms : List Mask),
    (∀ c ∈ cs, ∀ p ∈ c, resolvesWhole df p.1 = false) →
    evalDisjMasks df cs = .ok dms → ∀ m ∈ dms, m.isVec = true := by
  intro cs
  induction cs with
  | nil =>
    intro dms _ h m hm
    cases h
    cases hm
  | cons c cs' ih =>
    intro dms hw h m hm
    have h1 : evalDisjMasks df (c :: cs') =
        (do
          let ms2 ← evalConjMasks df c
          let m2 ← reduceM maskAnd ms2
          let rest2 ← evalDisjMasks df cs'
          pure (m2 :: rest2)) := rfl
    cases hms : evalConjMasks df c with
    | error e => rw [h1, hms, errBind] at h; cases h
    | ok ms =>
      cases hrm : reduceM maskAnd ms with
      | error e => rw [h1, hms, okBind, hrm, errBind] at h; cases h
      | ok m2 =>
        cases hrest : evalDisjMasks df cs' with
        | error e => rw [h1, hms, okBind, hrm, okBind, hrest, errBind] at h; cases h
        | ok rest2 =>
          rw [h1, hms, okBind, hrm, okBind, hrest, okBind] at h
          injection h with h3
          subst h3
          cases hm with
          | head =>
            exact reduceM_isVec maskAnd maskAnd_ok_isVec ms m
              (evalConjMasks_ok_isVec df c ms (hw c (List.mem_cons_self c cs')) hms) hrm
          | tail _ hm' =>
            exact ih rest2 (fun d hd => hw d (List.mem_cons_of_mem c hd)) hrest m hm'

/-- Positional boolean row selection keeps a subsequence of the rows. -/
theorem pick_sublist {α : Type} : ∀ (xs : List α) (bs : List Bool),
    List.Sublist (pick xs bs) xs := by
  intro xs
  induction xs with
  | nil => intro bs; simp [pick]
  | cons x xt ih =>
    intro bs
    cases bs with
    | nil => simp [pick]
    | cons b bt =>
      cases b with
      | true =>
        have h1 : pick (x :: xt) (true :: bt) = x :: pick xt bt := by
          simp [pick, List.filter_cons]
        rw [h1]
        exact List.Sublist.cons₂ x (ih bt)
      | false =>
        have h1 : pick (x :: xt) (false :: bt) = pick xt bt := by
          simp [pick, List.filter_cons]
        rw [h1]
        exact List.Sublist.cons x (ih bt)

/-- Row selection by an all-boolean mask preserves the dataset kind, its
column names and its index-level names, and keeps a subsequence of its
rows. -/
theorem keepRows_props (df : Dataset) (bs : List Bool) :
    (keepRows df bs).isFrameB = df.isFrameB ∧ (keepRows df bs).colNames = df.colNames ∧
    (keepRows df bs).indexNames = df.indexNames ∧
    List.Sublist (rowList (keepRows df bs)) (rowList df) := by
  cases df with
  | frame f =>
    refine ⟨rfl, rfl, rfl, ?_⟩
    exact List.Sublist.map _ (pick_sublist f.rows bs)
  | series s =>
    refine ⟨rfl, rfl, rfl, ?_⟩
    exact List.Sublist.map _ (pick_sublist s.entries bs)

/-- A successful row-vector selection is a `keepRows`. -/
theorem selectMask_vec_ok (df : Dataset) (ob : List (Option Bool)) (res : Dataset)
    (h : selectMask df (.vec ob) = .ok res) : ∃ bs, res = keepRows df bs := by
  have h2 : (do
      let bs ← toBoolMask ob
      if bs.length = df.nrows then pure (keepRows df bs)
      else Except.error PdError.alignError) = .ok res := h
  cases hb : toBoolMask ob with
  | error e => rw [hb, errBind] at h2; cases h2
  | ok bs =>
    rw [hb, okBind] at h2
    by_cases hl : bs.length = df.nrows
    · rw [if_pos hl] at h2
      exact ⟨bs, (Except.ok.inj h2).symm⟩
    · rw [if_neg hl] at h2
      cases h2

/-- Predicates surviving normalization come from the specification. -/
theorem normalize_preds (fs : Filters) (cs : List (List Pred)) (h : fs.normalize = .ok cs) :
    ∀ c ∈ cs, ∀ p ∈ c, p ∈ fs.preds := by
  cases fs with
  | flat ps =>
    have hc : cs = [ps] := by
      have h2 : Except.ok [ps] = Except.ok cs := h
      exact (Except.ok.inj h2).symm
    subst hc
    intro c hc p hp
    simp at hc
    subst hc
    simpa [Filters.preds] using hp
  | nested cs0 =>
    intro c hc p hp
    have hc0 : cs = cs0 := by
      cases cs0 with
      | nil => exact ((Except.ok.inj h).symm : cs = [])
      | cons c0 cs0' =>
        cases c0 with
        | nil => cases h
        | cons p0 ps0 => exact ((Except.ok.inj h).symm : cs = (p0 :: ps0) :: cs0')
    subst hc0
    simp only [Filters.preds, List.mem_flatten]
    exact ⟨c, hc, hp⟩

/-- C5 (amended): for every dataset and specification on which evaluation
succeeds and in which no predicate's field resolves to the whole frame (the
empty-string field on a DataFrame), the result is the same kind of dataset,
keeps the column names and index-level names, and its rows are a subsequence
of the input's rows in the input's order. -/
theorem filter_shape_preserved (df : Dataset) (fos : Option Filters) (res : Dataset)
    (hv : ∀ p ∈ predsOfO fos, resolvesWhole df p.1 = false)
    (h : filter_pd df fos = .ok res) :
    res.isFrameB = df.isFrameB ∧ res.colNames = df.colNames ∧
    res.indexNames = df.indexNames ∧ List.Sublist (rowList res) (rowList df) := by
  have hid : res = df →
      res.isFrameB = df.isFrameB ∧ res.colNames = df.colNames ∧
      res.indexNames = df.indexNames ∧ List.Sublist (rowList res) (rowList df) := by
    intro he
    subst he
    exact ⟨rfl, rfl, rfl, List.Sublist.refl _⟩
  cases fos with
  | none => exact hid (Except.ok.inj h).symm
  | some fs =>
    have hstep : filter_pd df (some fs) =
        (if fs.isEmpty = true then Except.ok df
         else match fs.normalize with
          | .error e => .error e
          | .ok cs => do
            let dms ← evalDisjMasks df cs
            let m ← reduceM maskOr dms
            selectMask df m) := rfl
    by_cases hemp : fs.isEmpty = true
    · have h2 : filter_pd df (some fs) = .ok df := by
        rw [hstep, if_pos hemp]
      rw [h2] at h
      exact hid (Except.ok.inj h).symm
    · cases hnorm : fs.normalize with
      | error e =>
        have h2 : filter_pd df (some fs) = .error e := by
          rw [hstep, if_neg hemp, hnorm]
        rw [h2] at h
        cases h
      | ok cs =>
        have h2 : filter_pd df (some fs) =
            (do
              let dms ← evalDisjMasks df cs
              let m ← reduceM maskOr dms
              selectMask df m) := by
          rw [hstep, if_neg hemp, hnorm]
        rw [h2] at h
        have hv2 : ∀ c ∈ cs, ∀ p ∈ c, resolvesWhole df p.1 = false := by
          intro c hc p hp
          exact hv p (normalize_preds fs cs hnorm c hc p hp)
        cases hdm : evalDisjMasks df cs with
        | error e => rw [hdm, errBind] at h; cases h
        | ok dms =>
          rw [hdm, okBind] at h
          cases hrm : reduceM maskOr dms with
          | error e => rw [hrm, errBind] at h; cases h
          | ok mk =>
            rw [hrm, okBind] at h
            have hvec : mk.isVec = true :=
              reduceM_isVec maskOr maskOr_ok_isVec dms mk
                (evalDisjMasks_ok_isVec df cs dms hv2 hdm) hrm
            cases mk with
            | grid g => simp [Mask.isVec] at hvec
            | vec ob =>
              obtain ⟨bs, hbs⟩ := selectMask_vec_ok df ob res h
              subst hbs
              exact keepRows_props df bs

/-- The result of the witness run for C5: the rows with age at least 30. -/
def ageDf : Dataset := .frame {
  indexNames := [none],
  colNames := ["id", "name", "age"],
  rows := [([vI 0], [vI 1, vS "alice", vI 30]),
           ([vI 2], [vI 3, vS "carol", vI 40])] }

/-- Witness for C5 (amended) at a concrete input. -/
theorem filter_shape_preserved_witness :
    (∀ p ∈ predsOfO (some (.flat [(("age", ">=", .scalar (vI 30)) : Pred)])),
      resolvesWhole aliceDf p.1 = false) ∧
    filter_pd aliceDf (some (.flat [("age", ">=", .scalar (vI 30))])) = .ok ageDf ∧
    (ageDf.isFrameB = aliceDf.isFrameB ∧ ageDf.colNames = aliceDf.colNames ∧
      ageDf.indexNames = aliceDf.indexNames ∧
      List.Sublist (rowList ageDf) (rowList aliceDf)) :=
  ⟨by decide, by decide,
    filter_shape_preserved aliceDf (some (.flat [("age", ">=", .scalar (vI 30))])) ageDf
      (by decide) (by decide)⟩
